import Mathlib

/-!
Verification of the life_tracker daily self-report tracker (src/main.py)
against its natural-language specification.

The development shallowly embeds the program's core:
* the append-only, schema-evolving CSV log store (`_write`, `_load_all`);
* the record builder `_ask` (questionnaire row assembly, string stripping,
  derived evening fields `flow_ratio`, `total_hours`, `die_roll`, `reward`,
  timestamp placement);
* the aggregation/series pipeline (`_plot_single`, `_show_grid`): sorting by
  timestamp, fill of absent values, and the cumulative transform applied to
  the two hardcoded columns;
* the command router `main`.

Machine floats are modelled as exact rationals; Python `round(x, 3)` is
modelled as round-half-to-even over ℚ.  CSV cells are strings; the textual
rendering of numbers is abstracted (no claim inspects numeric text).
-/

namespace LifeTracker

/-- A record/row: an association list from column name to textual cell value,
mirroring a Python dict row as the csv module sees it (first binding wins,
and rows built by the program have pairwise distinct keys). -/
abbrev Row : Type := List (String × String)

/-- Python `r.get(k, "")` combined with the csv writer's rendering of `None`:
the first binding of `k` in the row, or the empty cell when `k` is unbound. -/
def rowGet (r : Row) (k : String) : String := ((r.lookup k).getD "")

/-- `list(row.keys())`. -/
def rowKeys (r : Row) : List String := r.map Prod.fst

/-- `list(dict.fromkeys(l))` (src/main.py line 113): deduplication keeping the
first occurrence of each name, order preserved.  (Stated structurally: keep
the head and drop its later duplicates from the deduplicated tail; this is
the same function as dropping every later duplicate of an earlier name.) -/
def dedupFirst : List String → List String
  | [] => []
  | k :: ks => k :: (dedupFirst ks).filter (fun j => j ≠ k)

theorem mem_dedupFirst (l : List String) (a : String) :
    a ∈ dedupFirst l ↔ a ∈ l := by
  induction l with
  | nil => simp [dedupFirst]
  | cons k ks ih =>
    simp only [dedupFirst, List.mem_cons, List.mem_filter, ih,
      decide_eq_true_eq]
    by_cases hak : a = k <;> simp [hak]

theorem nodup_dedupFirst (l : List String) : (dedupFirst l).Nodup := by
  induction l with
  | nil => simp [dedupFirst]
  | cons k ks ih =>
    simp only [dedupFirst, List.nodup_cons]
    constructor
    · intro hmem
      have := (List.mem_filter.mp hmem).2
      simp at this
    · exact ih.filter _

theorem dedupFirst_eq_self (l : List String) (h : l.Nodup) :
    dedupFirst l = l := by
  induction l with
  | nil => simp [dedupFirst]
  | cons k ks ih =>
    rw [List.nodup_cons] at h
    simp only [dedupFirst, ih h.2]
    congr 1
    apply List.filter_eq_self.mpr
    intro j hj
    simp only [decide_eq_true_eq]
    intro hjk
    exact h.1 (hjk ▸ hj)

theorem filter_dedupFirst (p : String → Bool) (l : List String) :
    (dedupFirst l).filter p = dedupFirst (l.filter p) := by
  induction l with
  | nil => simp [dedupFirst]
  | cons k ks ih =>
    by_cases hp : p k
    · simp only [dedupFirst, List.filter_cons, hp, if_pos]
      simp only [dedupFirst, List.filter_filter, ← ih, List.filter_filter]
      congr 1
      apply List.filter_congr
      intro b _
      exact Bool.and_comm _ _
    · simp only [dedupFirst, List.filter_cons, hp, if_neg, Bool.false_eq_true,
        not_false_iff, ite_false]
      rw [List.filter_filter, ← ih]
      apply List.filter_congr
      intro b _
      by_cases hbk : b = k
      · subst hbk
        simp [hp]
      · simp [hbk]

theorem dedupFirst_append (A B : List String) :
    dedupFirst (A ++ B)
      = dedupFirst A ++ dedupFirst (B.filter (fun b => decide (b ∉ A))) := by
  induction A with
  | nil =>
    simp [dedupFirst]
  | cons a A ih =>
    simp only [List.cons_append, dedupFirst, List.append_eq, ih,
      List.filter_append]
    congr 1
    congr 1
    rw [filter_dedupFirst, List.filter_filter]
    congr 1
    apply List.filter_congr
    intro b _
    by_cases hba : b = a
    · subst hba
      simp
    · by_cases hbA : b ∈ A <;> simp [hba, hbA]

theorem dedupFirst_idem (l : List String) :
    dedupFirst (dedupFirst l) = dedupFirst l :=
  dedupFirst_eq_self _ (nodup_dedupFirst l)

theorem dedupFirst_append_left (A B : List String) :
    dedupFirst (dedupFirst A ++ B) = dedupFirst (A ++ B) := by
  rw [dedupFirst_append, dedupFirst_append, dedupFirst_idem]
  have hfe : B.filter (fun b => decide (b ∉ dedupFirst A))
      = B.filter (fun b => decide (b ∉ A)) := by
    apply List.filter_congr
    intro b _
    simp [mem_dedupFirst]
  rw [hfe]

/-- The persisted CSV file for one period: a header line and one row per
observation, in file order. -/
structure LogFile where
  header : List String
  rows : List Row
deriving DecidableEq

/-- Embeds `_write` (src/main.py lines 100-124).  The file state is `none`
when the file does not exist yet.  It reads the existing rows and header (or
starts empty), unions the header with this record's keys keeping first-seen
order, appends the record, and rewrites every row padded with the empty cell
for columns the row lacks. -/
def write (file : Option LogFile) (row : Row) : LogFile :=
  let existing_fields := (file.map LogFile.header).getD []
  let prevRows := (file.map LogFile.rows).getD []
  let fieldnames := dedupFirst (existing_fields ++ rowKeys row)
  let allRows := prevRows ++ [row]
  { header := fieldnames,
    rows := allRows.map (fun r => fieldnames.map (fun k => (k, rowGet r k))) }

/-- The file produced by a sequence of appends to an initially missing file. -/
def writeAll (rs : List Row) : Option LogFile :=
  rs.foldl (fun f r => some (write f r)) none

/-- Embeds the per-period read side (`csv.DictReader` in `_write`,
`pd.read_csv` in `_load_all`): the parsed file when it exists, otherwise the
empty table. -/
def loadTable (file : Option LogFile) : LogFile := file.getD ⟨[], []⟩

/-- Every key of every row of a history, in encounter order. -/
def allKeys : List Row → List String
  | [] => []
  | r :: rs => rowKeys r ++ allKeys rs

/-- The header a history of appends produces: every column ever written, in
first-seen order. -/
def histHeader (rs : List Row) : List String := dedupFirst (allKeys rs)

/-- Closed form of the file contents after a sequence of appends. -/
def mkFile (rs : List Row) : LogFile :=
  { header := histHeader rs,
    rows := rs.map (fun s => (histHeader rs).map (fun k => (k, rowGet s k))) }

theorem allKeys_append (p q : List Row) :
    allKeys (p ++ q) = allKeys p ++ allKeys q := by
  induction p with
  | nil => simp [allKeys]
  | cons r rs ih => simp [allKeys, ih]

theorem mem_allKeys (rs : List Row) (k : String) :
    k ∈ allKeys rs ↔ ∃ r ∈ rs, k ∈ rowKeys r := by
  induction rs with
  | nil => simp [allKeys]
  | cons r rs ih =>
    simp [allKeys, ih, List.mem_append]

theorem lookup_map_header (s : Row) (H : List String) (k : String) :
    (H.map (fun h => (h, rowGet s h))).lookup k
      = if k ∈ H then some (rowGet s k) else none := by
  induction H with
  | nil => simp [List.lookup]
  | cons h t ih =>
    simp only [List.map_cons, List.lookup]
    by_cases hk : k = h
    · subst hk
      simp
    · have : (k == h) = false := by
        simpa using hk
      simp [this, ih, hk]

theorem lookup_eq_none_of_not_mem_keys (r : Row) (k : String)
    (h : k ∉ rowKeys r) : r.lookup k = none := by
  induction r with
  | nil => simp [List.lookup]
  | cons kv r ih =>
    simp only [rowKeys, List.map_cons, List.mem_cons] at h
    push_neg at h
    have hne : (k == kv.1) = false := by
      simpa using h.1
    have : r.lookup k = none := ih (by simpa [rowKeys] using h.2)
    simpa [List.lookup, hne] using this

theorem rowGet_eq_empty (r : Row) (k : String) (h : k ∉ rowKeys r) :
    rowGet r k = "" := by
  simp [rowGet, lookup_eq_none_of_not_mem_keys r k h]

theorem lookup_eq_some_of_mem_of_nodup (r : Row) (k : String) (v : String)
    (hmem : (k, v) ∈ r) (hnd : (rowKeys r).Nodup) : r.lookup k = some v := by
  induction r with
  | nil => simp at hmem
  | cons kv r ih =>
    simp only [rowKeys, List.map_cons, List.nodup_cons] at hnd
    rcases List.mem_cons.mp hmem with hhd | htl
    · subst hhd
      simp [List.lookup]
    · have hk : k ≠ kv.1 := by
        intro hkeq
        apply hnd.1
        exact hkeq ▸ (List.mem_map.mpr ⟨(k, v), htl, rfl⟩)
      have hkb : (k == kv.1) = false := by simpa using hk
      simpa [List.lookup, hkb] using ih htl (by simpa [rowKeys] using hnd.2)

theorem write_none (r : Row) : write none r = mkFile [r] := by
  simp [write, mkFile, histHeader, allKeys]

theorem write_some (f : LogFile) (r : Row) :
    write (some f) r
      = { header := dedupFirst (f.header ++ rowKeys r),
          rows := (f.rows ++ [r]).map (fun q =>
            (dedupFirst (f.header ++ rowKeys r)).map
              (fun k => (k, rowGet q k))) } := rfl

theorem rowGet_map_header (s : Row) (H : List String) (k : String) :
    rowGet (H.map (fun h => (h, rowGet s h))) k
      = if k ∈ H then rowGet s k else "" := by
  rw [show rowGet (H.map (fun h => (h, rowGet s h))) k
        = ((H.map (fun h => (h, rowGet s h))).lookup k).getD "" from rfl]
  rw [lookup_map_header]
  by_cases hkH : k ∈ H
  · simp [hkH]
  · simp [hkH]

theorem write_mkFile (p : List Row) (r : Row) :
    write (some (mkFile p)) r = mkFile (p ++ [r]) := by
  have hhdr : dedupFirst ((mkFile p).header ++ rowKeys r)
      = histHeader (p ++ [r]) := by
    simp only [mkFile, histHeader]
    rw [dedupFirst_append_left, allKeys_append]
    simp [allKeys]
  rw [write_some, hhdr]
  show LogFile.mk _ _ = LogFile.mk _ _
  congr 1
  show ((mkFile p).rows ++ [r]).map _
      = (p ++ [r]).map (fun s => (histHeader (p ++ [r])).map
          (fun k => (k, rowGet s k)))
  rw [List.map_append, List.map_append]
  congr 1
  show (p.map (fun s => (histHeader p).map (fun h => (h, rowGet s h)))).map _ = _
  rw [List.map_map]
  apply List.map_congr_left
  intro s hs
  simp only [Function.comp]
  apply List.map_congr_left
  intro k _
  have : rowGet ((histHeader p).map (fun h => (h, rowGet s h))) k
      = rowGet s k := by
    rw [rowGet_map_header]
    by_cases hkH : k ∈ histHeader p
    · simp [hkH]
    · have hks : k ∉ rowKeys s := by
        intro hk
        exact hkH ((mem_dedupFirst _ _).mpr
          ((mem_allKeys p k).mpr ⟨s, hs, hk⟩))
      simp [hkH, rowGet_eq_empty s k hks]
  rw [this]

theorem writeAll_from (rs p : List Row) :
    rs.foldl (fun f r => some (write f r)) (some (mkFile p))
      = some (mkFile (p ++ rs)) := by
  induction rs generalizing p with
  | nil => simp
  | cons r rs ih =>
    simp only [List.foldl_cons, write_mkFile]
    rw [ih (p ++ [r])]
    simp

theorem loadTable_writeAll (rs : List Row) :
    loadTable (writeAll rs) = mkFile rs := by
  cases rs with
  | nil => simp [loadTable, writeAll, mkFile, histHeader, allKeys, dedupFirst]
  | cons r rs =>
    simp only [writeAll, List.foldl_cons, write_none]
    rw [writeAll_from rs [r]]
    simp [loadTable]

/-- C1: for every sequence of appends to a period's log, the persisted header
equals the union of the previous header and the appended record's keys in
first-seen order: existing columns keep their original relative order and the
record's new columns are appended at the end in the record's own key order;
and this first-seen order is preserved across many appends (the header only
ever grows at the end, and after any history it lists every column ever
written, in first-encounter order). -/
theorem header_union_first_seen :
    (∀ (rs : List Row) (r : Row), (rowKeys r).Nodup →
        (loadTable (writeAll (rs ++ [r]))).header
          = (loadTable (writeAll rs)).header
            ++ (rowKeys r).filter
                (fun k => decide (k ∉ (loadTable (writeAll rs)).header)))
    ∧ (∀ rs : List Row,
        (loadTable (writeAll rs)).header = dedupFirst (allKeys rs))
    ∧ (∀ rs more : List Row, ∃ tail,
        (loadTable (writeAll (rs ++ more))).header
          = (loadTable (writeAll rs)).header ++ tail) := by
  have hacc : ∀ rs : List Row,
      (loadTable (writeAll rs)).header = dedupFirst (allKeys rs) := by
    intro rs
    rw [loadTable_writeAll]
    rfl
  refine ⟨?_, hacc, ?_⟩
  · intro rs r hnd
    rw [hacc, hacc, allKeys_append]
    show dedupFirst (allKeys rs ++ (rowKeys r ++ allKeys []))
        = dedupFirst (allKeys rs) ++ _
    rw [show allKeys ([] : List Row) = [] from rfl, List.append_nil,
      dedupFirst_append]
    congr 1
    rw [dedupFirst_eq_self _ (hnd.filter _)]
    apply List.filter_congr
    intro b _
    simp [mem_dedupFirst]
  · intro rs more
    refine ⟨dedupFirst ((allKeys more).filter
      (fun b => decide (b ∉ allKeys rs))), ?_⟩
    rw [hacc, hacc, allKeys_append, dedupFirst_append]

theorem header_union_first_seen_witness :
    (rowKeys [("b", "2"), ("a", "3")]).Nodup
    ∧ (loadTable (writeAll ([[("a", "1")]] ++ [[("b", "2"), ("a", "3")]]))).header
        = (loadTable (writeAll [[("a", "1")]])).header
          ++ (rowKeys [("b", "2"), ("a", "3")]).filter
              (fun k => decide (k ∉ (loadTable (writeAll [[("a", "1")]])).header))
    ∧ (loadTable (writeAll ([[("a", "1")]] ++ [[("b", "2"), ("a", "3")]]))).header
        = ["a", "b"] :=
  ⟨by decide,
   header_union_first_seen.1 [[("a", "1")]] [("b", "2"), ("a", "3")] (by decide),
   by decide⟩

/-- C2: after every append, every persisted row has exactly one (possibly
empty) cell per column of the current header, in header order, with the empty
cell backfilled wherever the originating record lacks that column; this holds
after any sequence of appends. -/
theorem rows_conform_to_header (rs : List Row) (r : Row) :
    (∀ q ∈ (loadTable (writeAll (rs ++ [r]))).rows,
        rowKeys q = (loadTable (writeAll (rs ++ [r]))).header)
    ∧ (∀ (i : ℕ) (s : Row), (rs ++ [r])[i]? = some s →
        (loadTable (writeAll (rs ++ [r]))).rows[i]?
          = some ((loadTable (writeAll (rs ++ [r]))).header.map
              (fun k => (k, rowGet s k)))) := by
  rw [loadTable_writeAll]
  constructor
  · intro q hq
    simp only [mkFile] at hq
    rcases List.mem_map.mp hq with ⟨s, _, rfl⟩
    simp [rowKeys, mkFile, List.map_map, Function.comp_def]
  · intro i s hi
    simp only [mkFile]
    rw [List.getElem?_map, hi]
    rfl

theorem rows_conform_to_header_witness :
    ((loadTable (writeAll ([[("a", "1")]] ++ [[("b", "2")]]))).rows[0]?
        = some ((loadTable (writeAll ([[("a", "1")]] ++ [[("b", "2")]]))).header.map
            (fun k => (k, rowGet [("a", "1")] k))))
    ∧ (loadTable (writeAll ([[("a", "1")]] ++ [[("b", "2")]]))).rows
        = [[("a", "1"), ("b", "")], [("a", ""), ("b", "2")]] :=
  ⟨(rows_conform_to_header [[("a", "1")]] [("b", "2")]).2 0 [("a", "1")] (by decide),
   by decide⟩

/-- C5: round-trip.  Appending a sequence of records and loading the period
returns one row per record, in append order, and each record's field values
are retrievable unchanged from its row; loading a period never written gives
the empty table. -/
theorem append_load_round_trip :
    (∀ rs : List Row, (∀ r ∈ rs, (rowKeys r).Nodup) →
      (loadTable (writeAll rs)).rows.length = rs.length
      ∧ (∀ (i : ℕ) (r : Row), rs[i]? = some r → ∀ k v, (k, v) ∈ r →
          ∃ q, (loadTable (writeAll rs)).rows[i]? = some q
            ∧ q.lookup k = some v))
    ∧ loadTable none = ⟨[], []⟩ := by
  constructor
  · intro rs hnd
    rw [loadTable_writeAll]
    constructor
    · simp [mkFile]
    · intro i r hi k v hkv
      have hr : r ∈ rs := List.getElem?_mem hi
      refine ⟨(histHeader rs).map (fun k2 => (k2, rowGet r k2)), ?_, ?_⟩
      · simp only [mkFile]
        rw [List.getElem?_map, hi]
        rfl
      · rw [lookup_map_header]
        have hkH : k ∈ histHeader rs := by
          simp only [histHeader, mem_dedupFirst, mem_allKeys]
          exact ⟨r, hr, List.mem_map.mpr ⟨(k, v), hkv, rfl⟩⟩
        rw [if_pos hkH]
        have hlook : r.lookup k = some v :=
          lookup_eq_some_of_mem_of_nodup r k v hkv (hnd r hr)
        simp [rowGet, hlook]
  · rfl

theorem append_load_round_trip_witness :
    (∀ r ∈ [[("a", "1"), ("b", "x y")], [("c", "2")]], (rowKeys r).Nodup)
    ∧ (∃ q, (loadTable (writeAll [[("a", "1"), ("b", "x y")], [("c", "2")]])).rows[0]?
          = some q ∧ q.lookup "b" = some "x y")
    ∧ (loadTable (writeAll [[("a", "1"), ("b", "x y")], [("c", "2")]])).rows
        = [[("a", "1"), ("b", "x y"), ("c", "")], [("a", ""), ("b", ""), ("c", "2")]] :=
  ⟨by decide,
   ((append_load_round_trip.1 [[("a", "1"), ("b", "x y")], [("c", "2")]]
      (by decide)).2 0 [("a", "1"), ("b", "x y")] (by decide) "b" "x y" (by decide)),
   by decide⟩

/-! ## Record builder (`_ask`, src/main.py lines 60-97)

Answers are modelled post-parse: `_optional_cast` turns a blank numeric
answer into `None` and otherwise parses the declared numeric type, and the
reprompt loop guarantees a record's numeric fields are either absent or a
parsed number, so a numeric answer is an `Option ℚ` / `Option ℤ`.  The one
free-text field of each period keeps its raw input text and is processed by
Python `str.strip` (line 68), modelled character-exactly by `pyStrip`.
Machine floats are idealized as ℚ. -/

/-- A Python value as it sits in the row dict before CSV rendering. -/
inductive PyVal where
  | pnone : PyVal
  | num : ℚ → PyVal
  | str : String → PyVal
deriving DecidableEq

/-- `str.strip()`: drop leading and trailing whitespace. -/
def stripChars (cs : List Char) : List Char :=
  ((cs.dropWhile Char.isWhitespace).reverse.dropWhile Char.isWhitespace).reverse

/-- Python `raw.strip()` on the raw input text (src/main.py line 68). -/
def pyStrip (s : String) : String := String.mk (stripChars s.data)

/-- A possibly-skipped float answer, as `_optional_cast` leaves it. -/
def ofNumQ : Option ℚ → PyVal
  | none => PyVal.pnone
  | some q => PyVal.num q

/-- A possibly-skipped int answer, as `_optional_cast` leaves it. -/
def ofNumZ : Option ℤ → PyVal
  | none => PyVal.pnone
  | some n => PyVal.num (n : ℚ)

/-- Python `x or 0` on an optional number: `None`, `0` and `0.0` are falsy
and give `0`; any other number is returned unchanged. -/
def pyOrZero : Option ℚ → ℚ
  | none => 0
  | some q => if q = 0 then 0 else q

/-- Round half to even to an integer (the rounding Python `round` uses,
idealized over ℚ). -/
def rhe (q : ℚ) : ℤ :=
  if q - (⌊q⌋ : ℚ) < 1 / 2 then ⌊q⌋
  else if q - (⌊q⌋ : ℚ) > 1 / 2 then ⌊q⌋ + 1
  else if Even ⌊q⌋ then ⌊q⌋ else ⌊q⌋ + 1

/-- Python `round(x, 3)` idealized over ℚ. -/
def round3 (q : ℚ) : ℚ := (rhe (1000 * q) : ℚ) / 1000

/-- The parsed answers to the morning questionnaire (MORNING_Q), in question
order; every numeric question can be skipped, the free-text answer keeps its
raw text. -/
structure MorningAnswers where
  sleep_hours : Option ℚ
  freshness : Option ℤ
  anxiety : Option ℤ
  curiosity : Option ℤ
  motivation : Option ℤ
  prev_detox : Option ℤ
  obsession_lvl : Option ℤ
  primary_goal_raw : String
deriving DecidableEq

/-- The parsed answers to the evening questionnaire (EVENING_Q). -/
structure EveningAnswers where
  deep_work_hours : Option ℚ
  shallow_work_hours : Option ℚ
  problems_solved : Option ℤ
  progress_logged : Option ℤ
  satisfaction : Option ℤ
  mood : Option ℤ
  biggest_insight_raw : String
deriving DecidableEq

/-- The morning row `_ask` builds: timestamp and period first (line 61), then
one entry per question in question order; the free-text answer is stripped. -/
def askMorning (ts : String) (a : MorningAnswers) : List (String × PyVal) :=
  [("timestamp", PyVal.str ts), ("period", PyVal.str "morning"),
   ("sleep_hours", ofNumQ a.sleep_hours),
   ("freshness", ofNumZ a.freshness),
   ("anxiety", ofNumZ a.anxiety),
   ("curiosity", ofNumZ a.curiosity),
   ("motivation", ofNumZ a.motivation),
   ("prev_detox", ofNumZ a.prev_detox),
   ("obsession_lvl", ofNumZ a.obsession_lvl),
   ("primary_goal", PyVal.str (pyStrip a.primary_goal_raw))]

/-- The evening row `_ask` builds: timestamp and period, the answers in
question order (free text stripped), then the derived fields of lines 75-85:
`flow_ratio` (None when `deep + shallow` is falsy, i.e. zero), `total_hours`,
`die_roll` (the random draw is a parameter) and `reward`. -/
def askEvening (ts : String) (roll : ℤ) (a : EveningAnswers) :
    List (String × PyVal) :=
  [("timestamp", PyVal.str ts), ("period", PyVal.str "evening"),
   ("deep_work_hours", ofNumQ a.deep_work_hours),
   ("shallow_work_hours", ofNumQ a.shallow_work_hours),
   ("problems_solved", ofNumZ a.problems_solved),
   ("progress_logged", ofNumZ a.progress_logged),
   ("satisfaction", ofNumZ a.satisfaction),
   ("mood", ofNumZ a.mood),
   ("biggest_insight", PyVal.str (pyStrip a.biggest_insight_raw)),
   ("flow_ratio",
     if pyOrZero a.deep_work_hours + pyOrZero a.shallow_work_hours = 0
     then PyVal.pnone
     else PyVal.num (round3 (pyOrZero a.deep_work_hours
       / (pyOrZero a.deep_work_hours + pyOrZero a.shallow_work_hours)))),
   ("total_hours",
     PyVal.num (pyOrZero a.deep_work_hours + pyOrZero a.shallow_work_hours)),
   ("die_roll", PyVal.num (roll : ℚ)),
   ("reward", PyVal.num (if roll = 1 then 1 else 0))]

/-- Wall-clock model of `_ask` for the morning run: `tStart` is the clock
reading when `_ask` begins, before the first question is prompted, and
`tEnd` the reading after the last question is answered, when the record is
finalized.  The source calls `datetime.now()` exactly once, at line 61 before
the question loop, so the row is built from `tStart`. -/
def askMorningClocked (tStart tEnd : String) (a : MorningAnswers) :
    List (String × PyVal) :=
  askMorning tStart a

/-- Wall-clock model of `_ask` for the evening run; see `askMorningClocked`. -/
def askEveningClocked (tStart tEnd : String) (roll : ℤ) (a : EveningAnswers) :
    List (String × PyVal) :=
  askEvening tStart roll a

/-- The csv writer's rendering of a cell value: `None` becomes the empty
cell, strings are written verbatim; the decimal text of a number is
abstracted by `toString` (no claim inspects numeric text). -/
def render : PyVal → String
  | PyVal.pnone => ""
  | PyVal.num q => toString q
  | PyVal.str s => s

/-- A built row as `_write` receives it, with cells rendered. -/
def renderRow (row : List (String × PyVal)) : Row :=
  row.map (fun kv => (kv.1, render kv.2))

/-- `_ask("morning", ...)` followed by its `_write` call, against file state
`prev`. -/
def writeAskMorning (prev : Option LogFile) (ts : String)
    (a : MorningAnswers) : LogFile :=
  write prev (renderRow (askMorning ts a))

/-- `_ask("evening", ...)` followed by its `_write` call, against file state
`prev`. -/
def writeAskEvening (prev : Option LogFile) (ts : String) (roll : ℤ)
    (a : EveningAnswers) : LogFile :=
  write prev (renderRow (askEvening ts roll a))

theorem pyOrZero_eq_getD (x : Option ℚ) : pyOrZero x = x.getD 0 := by
  cases x with
  | none => rfl
  | some q =>
    by_cases hq : q = 0
    · simp [pyOrZero, hq]
    · simp [pyOrZero, hq]

theorem askEvening_lookup_total (ts : String) (roll : ℤ) (a : EveningAnswers) :
    (askEvening ts roll a).lookup "total_hours"
      = some (PyVal.num (pyOrZero a.deep_work_hours
          + pyOrZero a.shallow_work_hours)) := rfl

theorem askEvening_lookup_flow (ts : String) (roll : ℤ) (a : EveningAnswers) :
    (askEvening ts roll a).lookup "flow_ratio"
      = some (if pyOrZero a.deep_work_hours + pyOrZero a.shallow_work_hours = 0
          then PyVal.pnone
          else PyVal.num (round3 (pyOrZero a.deep_work_hours
            / (pyOrZero a.deep_work_hours + pyOrZero a.shallow_work_hours)))) :=
  rfl

/-- C3 as stated is false on the code: `flow_ratio` is absent exactly when
`total_hours == 0` (Python truthiness of `total`), not whenever
`total_hours` fails to be positive.  With `deep_work_hours = -1` and
`shallow_work_hours` skipped, `total_hours = -1` is not `> 0`, yet
`flow_ratio` is computed (and equals `1.0`), not absent. -/
theorem flow_ratio_counterexample :
    (askEvening "2024-01-01 21:00:00" 2
        ⟨some (-1), none, none, none, none, none, ""⟩).lookup "total_hours"
      = some (PyVal.num (-1))
    ∧ ¬ ((-1 : ℚ) > 0)
    ∧ (askEvening "2024-01-01 21:00:00" 2
        ⟨some (-1), none, none, none, none, none, ""⟩).lookup "flow_ratio"
      = some (PyVal.num 1)
    ∧ some (PyVal.num 1) ≠ some PyVal.pnone := by
  refine ⟨?_, by norm_num, ?_, by simp⟩
  · rw [askEvening_lookup_total]
    norm_num [pyOrZero]
  · rw [askEvening_lookup_flow]
    norm_num [pyOrZero, round3, rhe]

/-- C3 amended: `total_hours = deep + shallow` with absent addends treated
as 0; `flow_ratio = round3 (deep / total_hours)` whenever `total_hours ≠ 0`
(for the nonnegative hours the questionnaire intends this coincides with
`total_hours > 0`), and `flow_ratio` is absent (None) when `total_hours = 0`,
so division by zero never occurs. -/
theorem flow_ratio_amended (ts : String) (roll : ℤ) (a : EveningAnswers) :
    (askEvening ts roll a).lookup "total_hours"
      = some (PyVal.num (a.deep_work_hours.getD 0 + a.shallow_work_hours.getD 0))
    ∧ (a.deep_work_hours.getD 0 + a.shallow_work_hours.getD 0 ≠ 0 →
        (askEvening ts roll a).lookup "flow_ratio"
          = some (PyVal.num (round3 (a.deep_work_hours.getD 0
              / (a.deep_work_hours.getD 0 + a.shallow_work_hours.getD 0)))))
    ∧ (a.deep_work_hours.getD 0 + a.shallow_work_hours.getD 0 = 0 →
        (askEvening ts roll a).lookup "flow_ratio" = some PyVal.pnone) := by
  refine ⟨?_, ?_, ?_⟩
  · rw [askEvening_lookup_total, pyOrZero_eq_getD, pyOrZero_eq_getD]
  · intro h
    rw [askEvening_lookup_flow, pyOrZero_eq_getD, pyOrZero_eq_getD, if_neg h]
  · intro h
    rw [askEvening_lookup_flow, pyOrZero_eq_getD, pyOrZero_eq_getD, if_pos h]

theorem flow_ratio_amended_witness :
    ((2 : ℚ) + 6 ≠ 0)
    ∧ (askEvening "t" 4 ⟨some 2, some 6, none, none, none, none, "i"⟩).lookup
        "flow_ratio" = some (PyVal.num (round3 ((2 : ℚ) / (2 + 6))))
    ∧ round3 ((2 : ℚ) / (2 + 6)) = 1 / 4 :=
  ⟨by norm_num,
   by
    have h := (flow_ratio_amended "t" 4
      ⟨some 2, some 6, none, none, none, none, "i"⟩).2.1 (by norm_num)
    simpa using h,
   by norm_num [round3, rhe]⟩

/-- C10: every evening record carries a present, numeric `total_hours`: the
code always sets `row["total_hours"] = deep + shallow` (with skipped answers
coerced to 0), so even when both work-hours answers are skipped the stored
value is the number 0, never None. -/
theorem total_hours_never_null (ts : String) (roll : ℤ) (a : EveningAnswers) :
    (∃ q : ℚ, (askEvening ts roll a).lookup "total_hours"
        = some (PyVal.num q))
    ∧ (a.deep_work_hours = none → a.shallow_work_hours = none →
        (askEvening ts roll a).lookup "total_hours" = some (PyVal.num 0)) := by
  constructor
  · exact ⟨_, askEvening_lookup_total ts roll a⟩
  · intro h1 h2
    rw [askEvening_lookup_total, h1, h2]
    norm_num [pyOrZero]

theorem total_hours_never_null_witness :
    (askEvening "t" 5 ⟨none, none, none, none, none, none, "i"⟩).lookup
        "total_hours" = some (PyVal.num 0) :=
  (total_hours_never_null "t" 5
    ⟨none, none, none, none, none, none, "i"⟩).2 rfl rfl

/-- C7 as stated is false on the code: `_ask` calls `datetime.now()` once, on
its first line, before the first question is prompted (src/main.py line 61).
With a clock reading "09:00:00" at the start and "09:07:12" at finalization,
the stored timestamp is the start reading, not the finalization reading. -/
theorem timestamp_counterexample :
    (askMorningClocked "2024-05-01 09:00:00" "2024-05-01 09:07:12"
        ⟨none, none, none, none, none, none, none, "g"⟩).lookup "timestamp"
      = some (PyVal.str "2024-05-01 09:00:00")
    ∧ "2024-05-01 09:00:00" ≠ "2024-05-01 09:07:12" :=
  ⟨rfl, by decide⟩

/-- C7 amended: for both periods the Observation's timestamp is generated
when `_ask` starts, before the first question is asked — not at record
finalization. -/
theorem timestamp_at_start (tStart tEnd : String) (a : MorningAnswers)
    (roll : ℤ) (b : EveningAnswers) :
    (askMorningClocked tStart tEnd a).lookup "timestamp"
        = some (PyVal.str tStart)
    ∧ (askEveningClocked tStart tEnd roll b).lookup "timestamp"
        = some (PyVal.str tStart) :=
  ⟨rfl, rfl⟩

/-- Appending any record leaves it as the last line of the rewritten file,
and looking up one of its own columns there returns the record's value. -/
theorem write_last_lookup (prev : Option LogFile) (row : Row) (k : String)
    (hk : k ∈ rowKeys row) :
    ∃ q, (write prev row).rows.getLast? = some q
      ∧ q.lookup k = some (rowGet row k) := by
  cases prev with
  | none =>
    rw [write_none]
    refine ⟨(histHeader [row]).map (fun h => (h, rowGet row h)), rfl, ?_⟩
    rw [lookup_map_header, if_pos]
    simp only [histHeader, mem_dedupFirst, allKeys, List.append_nil]
    exact hk
  | some f =>
    rw [write_some]
    refine ⟨(dedupFirst (f.header ++ rowKeys row)).map
      (fun h => (h, rowGet row h)), ?_, ?_⟩
    · show ((f.rows ++ [row]).map _).getLast? = _
      rw [List.map_append]
      exact List.getLast?_concat _
    · rw [lookup_map_header, if_pos]
      rw [mem_dedupFirst]
      exact List.mem_append_right _ hk

/-- C8 as stated is false on the code: for `str`-typed questions `_ask`
stores `raw.strip()`, not the raw text (src/main.py line 68).  Entering
`" ship core "` for the morning free-text question persists `"ship core"`:
the stored cell differs from the entered text. -/
theorem verbatim_text_counterexample :
    (writeAskMorning none "2024-01-01 08:00:00"
        ⟨none, none, none, none, none, none, none, " ship core "⟩).rows.map
        (fun q => q.lookup "primary_goal")
      = [some "ship core"]
    ∧ some "ship core" ≠ some (" ship core " : String) := by decide

/-- C8 amended: a free-text answer is persisted with leading and trailing
whitespace stripped, and otherwise character for character: the cell stored
for the free-text field equals `strip` of the entered text, and equals the
entered text itself exactly when that text has no surrounding whitespace. -/
theorem stored_text_is_stripped (prev : Option LogFile) (ts : String)
    (a : MorningAnswers) (roll : ℤ) (b : EveningAnswers) :
    (∃ q, (writeAskMorning prev ts a).rows.getLast? = some q
        ∧ q.lookup "primary_goal" = some (pyStrip a.primary_goal_raw))
    ∧ (∃ q, (writeAskEvening prev ts roll b).rows.getLast? = some q
        ∧ q.lookup "biggest_insight" = some (pyStrip b.biggest_insight_raw))
    ∧ (pyStrip a.primary_goal_raw = a.primary_goal_raw →
        ∃ q, (writeAskMorning prev ts a).rows.getLast? = some q
          ∧ q.lookup "primary_goal" = some a.primary_goal_raw) := by
  have hm : "primary_goal" ∈ rowKeys (renderRow (askMorning ts a)) := by
    show "primary_goal" ∈ ["timestamp", "period", "sleep_hours", "freshness",
      "anxiety", "curiosity", "motivation", "prev_detox", "obsession_lvl",
      "primary_goal"]
    decide
  have he : "biggest_insight" ∈ rowKeys (renderRow (askEvening ts roll b)) := by
    show "biggest_insight" ∈ ["timestamp", "period", "deep_work_hours",
      "shallow_work_hours", "problems_solved", "progress_logged",
      "satisfaction", "mood", "biggest_insight", "flow_ratio", "total_hours",
      "die_roll", "reward"]
    decide
  have h1 := write_last_lookup prev (renderRow (askMorning ts a))
    "primary_goal" hm
  have h2 := write_last_lookup prev (renderRow (askEvening ts roll b))
    "biggest_insight" he
  rw [show rowGet (renderRow (askMorning ts a)) "primary_goal"
      = pyStrip a.primary_goal_raw from rfl] at h1
  rw [show rowGet (renderRow (askEvening ts roll b)) "biggest_insight"
      = pyStrip b.biggest_insight_raw from rfl] at h2
  refine ⟨h1, h2, ?_⟩
  intro hfix
  rw [hfix] at h1
  exact h1

theorem stored_text_is_stripped_witness :
    pyStrip "ship core" = "ship core"
    ∧ (∃ q, (writeAskMorning none "t"
          ⟨none, none, none, none, none, none, none, "ship core"⟩).rows.getLast?
            = some q
        ∧ q.lookup "primary_goal" = some ("ship core" : String)) :=
  ⟨by decide,
   (stored_text_is_stripped none "t"
      ⟨none, none, none, none, none, none, none, "ship core"⟩ 1
      ⟨none, none, none, none, none, none, "i"⟩).2.2 (by decide)⟩

/-! ## Aggregator and plotting pipeline (`_load_all`, `_plot_single`,
`_show_grid`, src/main.py lines 128-199)

A row of the unified dataframe carries an orderable timestamp (modelled ℕ)
and, per column, either a parsed number or NaN/absent (modelled `Option ℚ`;
a column a row never had is absent).  `df.sort_values("timestamp")` is
modelled by a comparison sort on the timestamp; `_plot_single` then takes
`fillna(0)` of a column and applies `cumsum` exactly for the two hardcoded
columns, while `_show_grid` plots each column of the sorted frame as is
(no `fillna`, no `cumsum`). -/

/-- One row of the unified (concatenated) dataframe. -/
structure URow where
  t : ℕ
  vals : List (String × Option ℚ)
deriving DecidableEq

/-- The value of column `c` in row `r` (`NaN`/absent is `none`). -/
def uget (r : URow) (c : String) : Option ℚ := (r.vals.lookup c).getD none

instance : DecidableRel (fun a b : URow => a.t ≤ b.t) :=
  fun a b => Nat.decLe a.t b.t

instance : IsTotal URow (fun a b : URow => a.t ≤ b.t) :=
  ⟨fun a b => Nat.le_total a.t b.t⟩

instance : IsTrans URow (fun a b : URow => a.t ≤ b.t) :=
  ⟨fun _ _ _ hab hbc => Nat.le_trans hab hbc⟩

/-- `df.sort_values("timestamp")`: the rows reordered ascending by
timestamp. -/
def sortByTime (rows : List URow) : List URow :=
  List.insertionSort (fun a b : URow => a.t ≤ b.t) rows

/-- The y-values `_plot_single` starts from: the sorted column with absent
values filled as 0 (`df_sorted[col].fillna(0)`). -/
def rawSeries (c : String) (rows : List URow) : List ℚ :=
  (sortByTime rows).map (fun r => (uget r c).getD 0)

/-- `pandas.Series.cumsum`: running sums. -/
def cumsum : List ℚ → List ℚ
  | [] => []
  | x :: xs => x :: (cumsum xs).map (fun y => x + y)

/-- The y-series `_plot_single` hands to the plot (lines 174-185): fill
absent with 0, then the cumulative sum exactly when the column is
`problems_solved` or `total_hours`, and the face values otherwise. -/
def plotSingleY (c : String) (rows : List URow) : List ℚ :=
  if c = "problems_solved" then cumsum (rawSeries c rows)
  else if c = "total_hours" then cumsum (rawSeries c rows)
  else rawSeries c rows

/-- The y-series `_show_grid` hands to each panel of the dashboard grid
(lines 158-161): the sorted column exactly as stored — no fill, no
transform. -/
def showGridY (c : String) (rows : List URow) : List (Option ℚ) :=
  (sortByTime rows).map (fun r => uget r c)

theorem cumsum_getElem (l : List ℚ) (i : ℕ) (h : i < l.length) :
    (cumsum l)[i]? = some ((l.take (i + 1)).sum) := by
  induction l generalizing i with
  | nil => simp at h
  | cons x xs ih =>
    cases i with
    | zero => simp [cumsum]
    | succ n =>
      have hn : n < xs.length := by simpa using h
      simp only [cumsum, List.getElem?_cons_succ, List.getElem?_map, ih n hn,
        List.take_succ_cons, List.sum_cons]
      rfl

theorem length_sortByTime (rows : List URow) :
    (sortByTime rows).length = rows.length :=
  (List.perm_insertionSort _ rows).length_eq

theorem length_rawSeries (c : String) (rows : List URow) :
    (rawSeries c rows).length = rows.length := by
  simp [rawSeries, length_sortByTime]

/-- Three unified rows whose problems-solved values are 2, 0, 3 and whose
satisfaction values are 3, 4, 1, at increasing timestamps. -/
def c4rows : List URow :=
  [⟨0, [("problems_solved", some 2), ("satisfaction", some 3)]⟩,
   ⟨1, [("problems_solved", some 0), ("satisfaction", some 4)]⟩,
   ⟨2, [("problems_solved", some 3), ("satisfaction", some 1)]⟩]

/-- C4 as stated is false on the code: the cumulative transform lives only in
`_plot_single` (post-record pop-up and image export).  The dashboard grid
`_show_grid` — a displayed series — plots every column at face value, so a
displayed problems-solved series of raw values [2, 0, 3] shows [2, 0, 3],
not the running sum [2, 2, 5]; `_plot_single` on the same data does show
[2, 2, 5], and a normal column like satisfaction is unchanged there. -/
theorem cumulative_policy_counterexample :
    showGridY "problems_solved" c4rows = [some 2, some 0, some 3]
    ∧ ([some (2 : ℚ), some 0, some 3] ≠ [some 2, some 2, some 5])
    ∧ plotSingleY "problems_solved" c4rows = [2, 2, 5]
    ∧ plotSingleY "satisfaction" c4rows = [3, 4, 1] := by
  refine ⟨rfl, by norm_num, ?_, rfl⟩
  rw [show plotSingleY "problems_solved" c4rows = cumsum [2, 0, 3] from rfl]
  norm_num [cumsum]

/-- C4 amended: in the single-column plots `_plot_single` produces (the
post-record pop-up and every exported image), exactly the columns
`problems_solved` and `total_hours` are displayed as running sums over the
time-sorted, zero-filled series — the i-th displayed value is the sum of the
first i+1 raw values — and every other column is displayed at face value;
the dashboard grid `_show_grid` displays every column at face value. -/
theorem cumulative_policy_amended :
    (∀ (rows : List URow) (i : ℕ), i < rows.length →
        (plotSingleY "problems_solved" rows)[i]?
          = some (((rawSeries "problems_solved" rows).take (i + 1)).sum))
    ∧ (∀ (rows : List URow) (i : ℕ), i < rows.length →
        (plotSingleY "total_hours" rows)[i]?
          = some (((rawSeries "total_hours" rows).take (i + 1)).sum))
    ∧ (∀ (c : String) (rows : List URow), c ≠ "problems_solved" →
        c ≠ "total_hours" → plotSingleY c rows = rawSeries c rows)
    ∧ (∀ (c : String) (rows : List URow),
        showGridY c rows = (sortByTime rows).map (fun r => uget r c)) := by
  refine ⟨?_, ?_, ?_, fun c rows => rfl⟩
  · intro rows i hi
    rw [show plotSingleY "problems_solved" rows
        = cumsum (rawSeries "problems_solved" rows) from rfl]
    exact cumsum_getElem _ i (by rw [length_rawSeries]; exact hi)
  · intro rows i hi
    rw [show plotSingleY "total_hours" rows
        = cumsum (rawSeries "total_hours" rows) from rfl]
    exact cumsum_getElem _ i (by rw [length_rawSeries]; exact hi)
  · intro c rows h1 h2
    rw [plotSingleY, if_neg h1, if_neg h2]

theorem cumulative_policy_amended_witness :
    (2 < c4rows.length)
    ∧ (plotSingleY "problems_solved" c4rows)[2]?
        = some (((rawSeries "problems_solved" c4rows).take 3).sum)
    ∧ ((rawSeries "problems_solved" c4rows).take 3).sum = 5
    ∧ ("satisfaction" : String) ≠ "problems_solved"
    ∧ plotSingleY "satisfaction" c4rows = rawSeries "satisfaction" c4rows :=
  ⟨by decide,
   cumulative_policy_amended.1 c4rows 2 (by decide),
   by
    rw [show rawSeries "problems_solved" c4rows = [2, 0, 3] from rfl]
    norm_num,
   by decide,
   cumulative_policy_amended.2.2.1 "satisfaction" c4rows (by decide) (by decide)⟩

/-- Two unified rows, out of timestamp order, the later one lacking the
satisfaction column (as a row from the other period's table would). -/
def c6rows : List URow :=
  [⟨1, []⟩, ⟨0, [("satisfaction", some 2)]⟩]

/-- C6 as stated is false on the code: only `_plot_single` fills absent
values as 0.  The dashboard grid `_show_grid` hands the sorted column to the
plot without `fillna`, so a row lacking the column contributes an absent
value, not 0 (while `_plot_single` on the same data yields [2, 0]). -/
theorem series_fill_counterexample :
    showGridY "satisfaction" c6rows = [some 2, none]
    ∧ ([some (2 : ℚ), none] ≠ [some 2, some 0])
    ∧ plotSingleY "satisfaction" c6rows = [2, 0] :=
  ⟨rfl, by simp, rfl⟩

/-- C6 amended: every series handed to the visualizer is ordered ascending
by timestamp (a permutation of the stored rows, which are not modified); in
the single-column path `_plot_single` every absent value of the column is
filled as 0 for series construction, while the dashboard grid `_show_grid`
leaves absent values absent. -/
theorem series_sorted_and_filled :
    (∀ rows : List URow,
        List.Sorted (fun a b : URow => a.t ≤ b.t) (sortByTime rows))
    ∧ (∀ rows : List URow, List.Perm (sortByTime rows) rows)
    ∧ (∀ (c : String) (rows : List URow) (i : ℕ) (r : URow),
        (sortByTime rows)[i]? = some r → c ≠ "problems_solved" →
        c ≠ "total_hours" →
        (plotSingleY c rows)[i]? = some ((uget r c).getD 0))
    ∧ (∀ (c : String) (rows : List URow) (i : ℕ) (r : URow),
        (sortByTime rows)[i]? = some r →
        (showGridY c rows)[i]? = some (uget r c)) := by
  refine ⟨?_, ?_, ?_, ?_⟩
  · intro rows
    exact List.sorted_insertionSort _ rows
  · intro rows
    exact List.perm_insertionSort _ rows
  · intro c rows i r hr h1 h2
    rw [plotSingleY, if_neg h1, if_neg h2, rawSeries, List.getElem?_map, hr]
    rfl
  · intro c rows i r hr
    rw [showGridY, List.getElem?_map, hr]
    rfl

theorem series_sorted_and_filled_witness :
    ((sortByTime c6rows)[1]? = some ⟨1, []⟩)
    ∧ ("satisfaction" : String) ≠ "problems_solved"
    ∧ (plotSingleY "satisfaction" c6rows)[1]?
        = some ((uget ⟨1, []⟩ "satisfaction").getD 0)
    ∧ (uget ⟨1, []⟩ "satisfaction").getD 0 = 0 :=
  ⟨rfl, by decide,
   series_sorted_and_filled.2.2.1 "satisfaction" c6rows 1 ⟨1, []⟩ rfl
     (by decide) (by decide),
   rfl⟩

/-! ## Command router (`main`, src/main.py lines 203-218) -/

/-- The action a recognized command dispatches to. -/
inductive MainAct where
  | recordMorning : MainAct
  | recordEvening : MainAct
  | plotAll : Bool → Bool → MainAct
deriving DecidableEq

/-- What the router itself prints: the module docstring (the usage/help
text, printed on a missing command), or the "Unknown command: <cmd>" line. -/
inductive OutMsg where
  | helpDoc : OutMsg
  | unknownCmd : String → OutMsg
deriving DecidableEq

/-- Outcome of one `main` invocation: the process exit status (0 when main
returns normally), what the router printed, and the dispatched action. -/
structure MainResult where
  exitCode : ℕ
  printed : List OutMsg
  act : Option MainAct
deriving DecidableEq

/-- ASCII lowercasing of one character (the command tokens are ASCII). -/
def asciiLowerChar (c : Char) : Char :=
  if 'A' ≤ c ∧ c ≤ 'Z' then Char.ofNat (c.toNat + 32) else c

/-- `cmd.lower()` of src/main.py line 207, character by character. -/
def pyLower (s : String) : String := String.mk (s.data.map asciiLowerChar)

/-- Embeds `main`: `argv` includes the script name; with no command token it
prints the docstring and exits 1; otherwise the token is lowercased and
dispatched to one of the four commands; an unrecognized token prints
`Unknown command: <cmd>` and exits 1. -/
def runMain (argv : List String) : MainResult :=
  match argv with
  | [] => ⟨1, [OutMsg.helpDoc], none⟩
  | [_] => ⟨1, [OutMsg.helpDoc], none⟩
  | _ :: cmdArg :: _ =>
    let cmd := pyLower cmdArg
    if cmd = "morning" then ⟨0, [], some MainAct.recordMorning⟩
    else if cmd = "evening" then ⟨0, [], some MainAct.recordEvening⟩
    else if cmd = "plot" then ⟨0, [], some (MainAct.plotAll true false)⟩
    else if cmd = "save" then ⟨0, [], some (MainAct.plotAll false true)⟩
    else ⟨1, [OutMsg.unknownCmd cmd], none⟩

/-- C9 as stated is false on the code: an unknown command does exit with a
non-zero status, but after printing only `Unknown command: <cmd>` — the
usage/help text (the module docstring) is not printed on that path; only the
missing-command path prints it. -/
theorem usage_on_unknown_counterexample :
    (runMain ["main.py", "bogus"]).exitCode = 1
    ∧ OutMsg.helpDoc ∉ (runMain ["main.py", "bogus"]).printed
    ∧ (runMain ["main.py", "bogus"]).printed = [OutMsg.unknownCmd "bogus"]
    ∧ (runMain ["main.py"]).exitCode = 1
    ∧ (runMain ["main.py"]).printed = [OutMsg.helpDoc] := by
  refine ⟨rfl, ?_, rfl, rfl, rfl⟩
  decide

/-- C9 amended: a missing command token terminates with exit status 1 after
printing the usage/help docstring; an unknown command token terminates with
exit status 1 after printing an `Unknown command` report naming the
(lowercased) token — not the usage text; and the exit status is 0 exactly
when the lowercased token is one of the four known commands. -/
theorem router_exit_amended :
    (∀ argv : List String, argv.length < 2 →
        runMain argv = ⟨1, [OutMsg.helpDoc], none⟩)
    ∧ (∀ (s cmdArg : String) (rest : List String),
        pyLower cmdArg ∉ ["morning", "evening", "plot", "save"] →
        runMain (s :: cmdArg :: rest)
          = ⟨1, [OutMsg.unknownCmd (pyLower cmdArg)], none⟩)
    ∧ (∀ (s cmdArg : String) (rest : List String),
        (runMain (s :: cmdArg :: rest)).exitCode = 0
          ↔ pyLower cmdArg ∈ ["morning", "evening", "plot", "save"]) := by
  refine ⟨?_, ?_, ?_⟩
  · intro argv h
    match argv with
    | [] => rfl
    | [_] => rfl
    | _ :: _ :: t =>
      simp only [List.length_cons] at h
      omega
  · intro s cmdArg rest h
    simp only [List.mem_cons, List.mem_singleton] at h
    push_neg at h
    obtain ⟨h1, h2, h3, h4⟩ := h
    show (if pyLower cmdArg = "morning"
        then (⟨0, [], some MainAct.recordMorning⟩ : MainResult)
      else if pyLower cmdArg = "evening"
        then ⟨0, [], some MainAct.recordEvening⟩
      else if pyLower cmdArg = "plot"
        then ⟨0, [], some (MainAct.plotAll true false)⟩
      else if pyLower cmdArg = "save"
        then ⟨0, [], some (MainAct.plotAll false true)⟩
      else ⟨1, [OutMsg.unknownCmd (pyLower cmdArg)], none⟩)
        = ⟨1, [OutMsg.unknownCmd (pyLower cmdArg)], none⟩
    rw [if_neg h1, if_neg h2, if_neg h3, if_neg (by simpa using h4)]
  · intro s cmdArg rest
    show (if pyLower cmdArg = "morning"
        then (⟨0, [], some MainAct.recordMorning⟩ : MainResult)
      else if pyLower cmdArg = "evening"
        then ⟨0, [], some MainAct.recordEvening⟩
      else if pyLower cmdArg = "plot"
        then ⟨0, [], some (MainAct.plotAll true false)⟩
      else if pyLower cmdArg = "save"
        then ⟨0, [], some (MainAct.plotAll false true)⟩
      else ⟨1, [OutMsg.unknownCmd (pyLower cmdArg)], none⟩).exitCode = 0
        ↔ pyLower cmdArg ∈ ["morning", "evening", "plot", "save"]
    by_cases h1 : pyLower cmdArg = "morning"
    · simp [h1]
    · by_cases h2 : pyLower cmdArg = "evening"
      · simp [h1, h2]
      · by_cases h3 : pyLower cmdArg = "plot"
        · simp [h1, h2, h3]
        · by_cases h4 : pyLower cmdArg = "save"
          · simp [h1, h2, h3, h4]
          · simp [h1, h2, h3, h4]

theorem router_exit_amended_witness :
    (["main.py"].length < 2)
    ∧ runMain ["main.py"] = ⟨1, [OutMsg.helpDoc], none⟩
    ∧ (pyLower "Bogus" ∉ ["morning", "evening", "plot", "save"])
    ∧ runMain ["main.py", "Bogus"]
        = ⟨1, [OutMsg.unknownCmd (pyLower "Bogus")], none⟩ :=
  ⟨by decide,
   router_exit_amended.1 ["main.py"] (by decide),
   by decide,
   router_exit_amended.2.1 "main.py" "Bogus" [] (by decide)⟩

end LifeTracker
